import Mathlib

/-!
Verification of the co2key controller-to-keyboard mapper, src/main.rs.

The Rust program polls gamepads and translates axis and button readings into
simulated keyboard key events, deduplicated through a ledger of key states.

Modelling decisions, diffable against the source:

* Floating point values (f32) are modelled by rationals.  The program only
  negates thresholds and compares values with strict orders, and both
  operations are exact on every representable float, so the embedding
  preserves the order structure the code observes.
* The HashMap of key states is modelled as a total function from keys to
  Bool defaulting to false, which matches entry(key).or_insert(false): an
  absent entry behaves exactly like a stored false.
* Calls into the rdev sink, simulate(KeyPress k) and simulate(KeyRelease k),
  are modelled as an emission list accumulated in program order; the source
  ignores the result of simulate, so the sink has no feedback into the code.
* gamepad.id() is a usize; the source compares controller_id with id as u32,
  which truncates the id modulo 2 ^ 32.  The model keeps the id as Nat and
  performs the same reduction at the comparison.
-/

/-- Keyboard keys: the rdev Key values occurring in main.rs. -/
inductive Key
  | KeyA | KeyD | KeyW | KeyS | KeyE | KeyK | KeyJ | KeyL | KeyH
  | LeftArrow | RightArrow | DownArrow | KeyM | Space | KeyX | KeyC | KeyV | KeyZ
  deriving DecidableEq

/-- Gamepad axes: the gilrs Axis values. -/
inductive Axis
  | LeftStickX | LeftStickY | LeftZ | RightStickX | RightStickY | RightZ
  | DPadX | DPadY
  deriving DecidableEq

/-- Gamepad buttons: the gilrs Button values used in main.rs and neighbours. -/
inductive Button
  | South | East | North | West | LeftTrigger | RightTrigger
  | LeftTrigger2 | RightTrigger2 | Select | Start | DPadUp | DPadDown
  deriving DecidableEq

/-- One call into the key injection sink: EventType KeyPress or KeyRelease. -/
inductive KeyEvent
  | press (key : Key)
  | release (key : Key)
  deriving DecidableEq

/-- The key targeted by a sink call. -/
def KeyEvent.key : KeyEvent → Key
  | .press k => k
  | .release k => k

/-- The key state ledger, HashMap Key bool with absent entries read as false. -/
abbrev KeyState := Key → Bool

/-- A snapshot of one connected gamepad: its runtime id (a usize) together
with the axis data and button data it currently reports; none models a
channel the device does not report. -/
structure Gamepad where
  id : Nat
  axis_data : Axis → Option ℚ
  button_data : Button → Option ℚ

/-- The value read for an axis: axis_data(a).map_or(0.0, value). -/
def Gamepad.axisValue (gamepad : Gamepad) (a : Axis) : ℚ :=
  (gamepad.axis_data a).getD 0

/-- The value read for a button: button_data(b).map_or(0.0, value). -/
def Gamepad.buttonValue (gamepad : Gamepad) (b : Button) : ℚ :=
  (gamepad.button_data b).getD 0

/-- The rational 0.5, the button press cutoff of the source, written with the
explicit constructor so that kernel reduction can evaluate comparisons. -/
def qHalf : ℚ := ⟨1, 2, by decide, by decide⟩

/-- The rational 0.3, the axis threshold of every rule in main(), written
with the explicit constructor for the same reason. -/
def q3_10 : ℚ := ⟨3, 10, by decide, by decide⟩

/-- The rational 0.1, used by scenario A. -/
def q1_10 : ℚ := ⟨1, 10, by decide, by decide⟩

/-- The rational 0.7, used by a counterexample. -/
def q7_10 : ℚ := ⟨7, 10, by decide, by decide⟩

/-- key_press_once from main.rs: when the ledger does not hold the key down,
emit one KeyPress to the sink and record the key as down; otherwise do
nothing. -/
def key_press_once (key_state : KeyState) (key : Key) : KeyState × List KeyEvent :=
  if key_state key then (key_state, [])
  else (Function.update key_state key true, [KeyEvent.press key])

/-- key_release_once from main.rs: when the ledger holds the key down, emit
one KeyRelease to the sink and record the key as up; otherwise do nothing. -/
def key_release_once (key_state : KeyState) (key : Key) : KeyState × List KeyEvent :=
  if key_state key then (Function.update key_state key false, [KeyEvent.release key])
  else (key_state, [])

/-- One axis rule: axis, high key, low key and dead zone threshold. -/
structure AxisMapping where
  axis : Axis
  high_key : Key
  low_key : Key
  threshold : ℚ
  deriving DecidableEq

/-- The match statement of AxisMapping::apply_mapping on an already fetched
axis value v: below minus threshold press the low key, above threshold press
the high key, otherwise release the low key and then the high key. -/
def AxisMapping.apply_value (m : AxisMapping) (key_state : KeyState) (v : ℚ) :
    KeyState × List KeyEvent :=
  if v < -m.threshold then key_press_once key_state m.low_key
  else if v > m.threshold then key_press_once key_state m.high_key
  else
    let r1 := key_release_once key_state m.low_key
    let r2 := key_release_once r1.1 m.high_key
    (r2.1, r1.2 ++ r2.2)

/-- AxisMapping::apply_mapping: fetch the axis value, defaulting a missing
reading to 0.0, and run the threshold match. -/
def AxisMapping.apply_mapping (m : AxisMapping) (key_state : KeyState)
    (gamepad : Gamepad) : KeyState × List KeyEvent :=
  m.apply_value key_state (gamepad.axisValue m.axis)

/-- One button rule: button and target key. -/
structure ButtonMapping where
  button : Button
  key : Key
  deriving DecidableEq

/-- The body of ButtonMapping::apply_mapping on an already fetched button
value: above 0.5 press the key, otherwise release it. -/
def ButtonMapping.apply_value (m : ButtonMapping) (key_state : KeyState) (v : ℚ) :
    KeyState × List KeyEvent :=
  if v > qHalf then key_press_once key_state m.key
  else key_release_once key_state m.key

/-- ButtonMapping::apply_mapping: fetch the button value, defaulting a
missing reading to 0.0, and threshold it at 0.5. -/
def ButtonMapping.apply_mapping (m : ButtonMapping) (key_state : KeyState)
    (gamepad : Gamepad) : KeyState × List KeyEvent :=
  m.apply_value key_state (gamepad.buttonValue m.button)

/-- A device mapping: the configured controller id (a u32) plus the ordered
axis rules and button rules. -/
structure ControllerMapping where
  controller_id : Nat
  axis_mappings : List AxisMapping
  button_mappings : List ButtonMapping
  deriving DecidableEq

/-- The for loop over axis_mappings inside ControllerMapping::apply_mapping,
threading the ledger and accumulating sink calls in order. -/
def runAxes (ms : List AxisMapping) (key_state : KeyState) (gamepad : Gamepad) :
    KeyState × List KeyEvent :=
  match ms with
  | [] => (key_state, [])
  | m :: rest =>
    let p := m.apply_mapping key_state gamepad
    let q := runAxes rest p.1 gamepad
    (q.1, p.2 ++ q.2)

/-- The for loop over button_mappings inside ControllerMapping::apply_mapping. -/
def runButtons (ms : List ButtonMapping) (key_state : KeyState) (gamepad : Gamepad) :
    KeyState × List KeyEvent :=
  match ms with
  | [] => (key_state, [])
  | m :: rest =>
    let p := m.apply_mapping key_state gamepad
    let q := runButtons rest p.1 gamepad
    (q.1, p.2 ++ q.2)

/-- ControllerMapping::apply_mapping: return early when controller_id differs
from the gamepad id truncated to u32; otherwise run every axis rule and then
every button rule in configured order. -/
def ControllerMapping.apply_mapping (m : ControllerMapping) (key_state : KeyState)
    (gamepad : Gamepad) : KeyState × List KeyEvent :=
  if m.controller_id ≠ gamepad.id % 2 ^ 32 then (key_state, [])
  else
    let ra := runAxes m.axis_mappings key_state gamepad
    let rb := runButtons m.button_mappings ra.1 gamepad
    (rb.1, ra.2 ++ rb.2)

/-- The whole mapping table. -/
structure Config where
  controller_mappings : List ControllerMapping

/-- The for loop over controller_mappings inside Config::apply_mapping. -/
def runMappings (ms : List ControllerMapping) (key_state : KeyState)
    (gamepad : Gamepad) : KeyState × List KeyEvent :=
  match ms with
  | [] => (key_state, [])
  | m :: rest =>
    let p := m.apply_mapping key_state gamepad
    let q := runMappings rest p.1 gamepad
    (q.1, p.2 ++ q.2)

/-- Config::apply_mapping: apply every controller mapping in order. -/
def Config.apply_mapping (c : Config) (key_state : KeyState) (gamepad : Gamepad) :
    KeyState × List KeyEvent :=
  runMappings c.controller_mappings key_state gamepad

/-- A rule of either kind, used to flatten a mapping pass into one list. -/
inductive GRule
  | axis (m : AxisMapping)
  | button (m : ButtonMapping)
  deriving DecidableEq

/-- Evaluate one rule against the ledger and a gamepad snapshot. -/
def GRule.run (r : GRule) (key_state : KeyState) (gamepad : Gamepad) :
    KeyState × List KeyEvent :=
  match r with
  | .axis m => m.apply_mapping key_state gamepad
  | .button m => m.apply_mapping key_state gamepad

/-- The keys a rule may read or write. -/
def GRule.keys : GRule → List Key
  | .axis m => [m.low_key, m.high_key]
  | .button m => [m.key]

/-- Run a list of rules in order against one gamepad. -/
def runRules (rs : List GRule) (key_state : KeyState) (gamepad : Gamepad) :
    KeyState × List KeyEvent :=
  match rs with
  | [] => (key_state, [])
  | r :: rest =>
    let p := r.run key_state gamepad
    let q := runRules rest p.1 gamepad
    (q.1, p.2 ++ q.2)

/-- The rules of one controller mapping in evaluation order: axis rules first,
then button rules. -/
def ControllerMapping.rules (m : ControllerMapping) : List GRule :=
  m.axis_mappings.map GRule.axis ++ m.button_mappings.map GRule.button

/-- The rules a Config pass actually evaluates against a device id: the rules
of every controller mapping whose controller_id equals the id truncated to
u32, in configured order. -/
def rulesForAux (ms : List ControllerMapping) (did : Nat) : List GRule :=
  match ms with
  | [] => []
  | m :: rest =>
    (if m.controller_id = did % 2 ^ 32 then m.rules else []) ++ rulesForAux rest did

/-- The rules a Config pass evaluates against a given gamepad. -/
def Config.rulesFor (c : Config) (gamepad : Gamepad) : List GRule :=
  rulesForAux c.controller_mappings gamepad.id

/-- Two rules own disjoint key sets. -/
def KeysDisjoint (r r' : GRule) : Prop :=
  ∀ k ∈ r.keys, k ∉ r'.keys

instance (r r' : GRule) : Decidable (KeysDisjoint r r') :=
  inferInstanceAs (Decidable (∀ k ∈ r.keys, k ∉ r'.keys))

/-- The postcondition an axis rule establishes for the value v it last saw:
the branch it takes leaves the corresponding key state behind. -/
def AxisMapping.Holds (m : AxisMapping) (v : ℚ) (key_state : KeyState) : Prop :=
  (v < -m.threshold → key_state m.low_key = true) ∧
  (¬ v < -m.threshold → v > m.threshold → key_state m.high_key = true) ∧
  (¬ v < -m.threshold → ¬ v > m.threshold →
    key_state m.low_key = false ∧ key_state m.high_key = false)

/-- The postcondition a button rule establishes for the value v it last saw. -/
def ButtonMapping.Holds (m : ButtonMapping) (v : ℚ) (key_state : KeyState) : Prop :=
  (v > qHalf → key_state m.key = true) ∧ (¬ v > qHalf → key_state m.key = false)

/-- The postcondition of a rule against a gamepad snapshot. -/
def GRule.Holds (r : GRule) (gamepad : Gamepad) (key_state : KeyState) : Prop :=
  match r with
  | .axis m => m.Holds (gamepad.axisValue m.axis) key_state
  | .button m => m.Holds (gamepad.buttonValue m.button) key_state

/-- The first controller mapping hard coded in main(), for controller 0. -/
def cm0 : ControllerMapping :=
  { controller_id := 0
  , axis_mappings :=
    [ { threshold := q3_10, axis := Axis.LeftStickX
      , high_key := Key.KeyD, low_key := Key.KeyA }
    , { threshold := q3_10, axis := Axis.LeftStickY
      , high_key := Key.KeyW, low_key := Key.KeyS } ]
  , button_mappings :=
    [ { button := Button.South, key := Key.KeyE }
    , { button := Button.East, key := Key.KeyK }
    , { button := Button.West, key := Key.KeyJ }
    , { button := Button.RightTrigger, key := Key.KeyL }
    , { button := Button.LeftTrigger, key := Key.KeyH } ] }

/-- The second controller mapping hard coded in main(), for controller 1. -/
def cm1 : ControllerMapping :=
  { controller_id := 1
  , axis_mappings :=
    [ { threshold := q3_10, axis := Axis.LeftStickX
      , high_key := Key.RightArrow, low_key := Key.LeftArrow }
    , { threshold := q3_10, axis := Axis.LeftStickY
      , high_key := Key.KeyM, low_key := Key.DownArrow } ]
  , button_mappings :=
    [ { button := Button.South, key := Key.Space }
    , { button := Button.East, key := Key.KeyX }
    , { button := Button.West, key := Key.KeyC }
    , { button := Button.RightTrigger, key := Key.KeyV }
    , { button := Button.LeftTrigger, key := Key.KeyZ } ] }

/-- The configuration hard coded in main(). -/
def mainConfig : Config := { controller_mappings := [cm0, cm1] }

/-!
Dispatch modes.  The source only implements snapshot mode: the main loop
receives one input-system event, then re-evaluates the whole Config against
the current snapshot of every connected gamepad.  The discrete-event mode of
the specification (section 4.5) is not present under src/, so it is modelled
from the specification below; every definition doing so says so in its doc
comment.
-/

/-- A physical state change of one input channel, the tagged union of
section 9 of the specification. -/
inductive RawEvent
  | AxisChanged (axis : Axis) (value : ℚ)
  | ButtonPressed (button : Button)
  | ButtonReleased (button : Button)

/-- A physical state change tagged with the device it happened on. -/
structure TaggedEvent where
  device : Nat
  ev : RawEvent

/-- The set of connected gamepads, in connection order. -/
abbrev World := List Gamepad

/-- Overwrite one axis reading of a gamepad. -/
def Gamepad.setAxis (gamepad : Gamepad) (a : Axis) (v : ℚ) : Gamepad :=
  { gamepad with axis_data := Function.update gamepad.axis_data a (some v) }

/-- Overwrite one button reading of a gamepad. -/
def Gamepad.setButton (gamepad : Gamepad) (b : Button) (v : ℚ) : Gamepad :=
  { gamepad with button_data := Function.update gamepad.button_data b (some v) }

/-- Apply one physical change to a gamepad: an axis change stores the new
value, a button press stores 1.0, a button release stores 0.0. -/
def Gamepad.applyRaw (gamepad : Gamepad) (e : RawEvent) : Gamepad :=
  match e with
  | .AxisChanged a v => gamepad.setAxis a v
  | .ButtonPressed b => gamepad.setButton b 1
  | .ButtonReleased b => gamepad.setButton b 0

/-- Apply one tagged physical change to the world: the gamepad whose runtime
id carries the tag absorbs the change. -/
def applyEvent (w : World) (e : TaggedEvent) : World :=
  w.map (fun g => if g.id = e.device then g.applyRaw e.ev else g)

/-- The body of the main loop after one event: for every connected gamepad,
config.apply_mapping against its current snapshot, in connection order. -/
def runSnapshots (c : Config) (w : World) (key_state : KeyState) :
    KeyState × List KeyEvent :=
  match w with
  | [] => (key_state, [])
  | g :: rest =>
    let p := c.apply_mapping key_state g
    let q := runSnapshots c rest p.1
    (q.1, p.2 ++ q.2)

/-- Snapshot mode dispatch of a whole event sequence, as main() runs it: each
physical change updates the world, then the loop re-scans every gamepad. -/
def snapshotRun (c : Config) (w : World) (key_state : KeyState) :
    List TaggedEvent → World × KeyState × List KeyEvent
  | [] => (w, key_state, [])
  | e :: es =>
    let w' := applyEvent w e
    let p := runSnapshots c w' key_state
    let r := snapshotRun c w' p.1 es
    (r.1, r.2.1, p.2 ++ r.2.2)

/-- Modelled from the spec: the unconditional press of the event-based button
strategy, section 4.3 (b), which bypasses the idempotence check and always
emits; the ledger still records the key as down.  Missing from src/. -/
def key_press_forced (key_state : KeyState) (key : Key) : KeyState × List KeyEvent :=
  (Function.update key_state key true, [KeyEvent.press key])

/-- Modelled from the spec: the unconditional release of the event-based
button strategy, section 4.3 (b).  Missing from src/. -/
def key_release_forced (key_state : KeyState) (key : Key) : KeyState × List KeyEvent :=
  (Function.update key_state key false, [KeyEvent.release key])

/-- Modelled from the spec: in discrete-event mode an axis change is offered
to every axis rule of the resolved mapping; a rule ignores the call unless
the changed axis matches its configured axis (section 4.2), and otherwise
runs the usual threshold match on the new value.  Missing from src/. -/
def discreteAxisRules (ms : List AxisMapping) (a : Axis) (v : ℚ)
    (key_state : KeyState) : KeyState × List KeyEvent :=
  match ms with
  | [] => (key_state, [])
  | m :: rest =>
    let p := if m.axis = a then m.apply_value key_state v else (key_state, [])
    let q := discreteAxisRules rest a v p.1
    (q.1, p.2 ++ q.2)

/-- Modelled from the spec: in discrete-event mode a button transition is
offered to every button rule of the resolved mapping; a rule ignores the
call unless the button matches, and otherwise presses or releases
unconditionally per section 4.3 (b).  Missing from src/. -/
def discreteButtonRules (ms : List ButtonMapping) (b : Button) (down : Bool)
    (key_state : KeyState) : KeyState × List KeyEvent :=
  match ms with
  | [] => (key_state, [])
  | m :: rest =>
    let p :=
      if m.button = b then
        if down then key_press_forced key_state m.key
        else key_release_forced key_state m.key
      else (key_state, [])
    let q := discreteButtonRules rest b down p.1
    (q.1, p.2 ++ q.2)

/-- Modelled from the spec: dispatch one discrete event into one resolved
controller mapping, evaluating only the rules relevant to the changed
channel (section 4.5).  Missing from src/. -/
def discreteDispatch (cm : ControllerMapping) (e : RawEvent)
    (key_state : KeyState) : KeyState × List KeyEvent :=
  match e with
  | .AxisChanged a v => discreteAxisRules cm.axis_mappings a v key_state
  | .ButtonPressed b => discreteButtonRules cm.button_mappings b true key_state
  | .ButtonReleased b => discreteButtonRules cm.button_mappings b false key_state

/-- Modelled from the spec: the position of a device id among the connected
devices.  Missing from src/. -/
def resolveIdx (w : World) (did : Nat) : Option Nat :=
  match w with
  | [] => none
  | g :: rest => if g.id = did then some 0 else (resolveIdx rest did).map (· + 1)

/-- Modelled from the spec: resolve the mapping for a discrete event by the
position of its device among the connected devices, nth connected device to
nth configured mapping (section 4.5).  Missing from src/. -/
def resolveMapping (c : Config) (w : World) (did : Nat) : Option ControllerMapping :=
  match resolveIdx w did with
  | some n => c.controller_mappings[n]?
  | none => none

/-- Modelled from the spec: one discrete-event mode step; an event whose
device resolves to no mapping is silently skipped.  Missing from src/. -/
def discreteStep (c : Config) (w : World) (key_state : KeyState) (e : TaggedEvent) :
    KeyState × List KeyEvent :=
  match resolveMapping c w e.device with
  | some cm => discreteDispatch cm e.ev key_state
  | none => (key_state, [])

/-- Modelled from the spec: discrete-event mode dispatch of a whole event
sequence; the world evolves exactly as in snapshot mode, but only the rules
relevant to each single event run.  Missing from src/. -/
def discreteRun (c : Config) (w : World) (key_state : KeyState) :
    List TaggedEvent → World × KeyState × List KeyEvent
  | [] => (w, key_state, [])
  | e :: es =>
    let w' := applyEvent w e
    let p := discreteStep c w' key_state e
    let r := discreteRun c w' p.1 es
    (r.1, r.2.1, p.2 ++ r.2.2)

/-- Replay one sink call onto a ledger, unconditionally. -/
def replayEvent (key_state : KeyState) (e : KeyEvent) : KeyState :=
  match e with
  | .press k => Function.update key_state k true
  | .release k => Function.update key_state k false

/-- Replay a sink call sequence onto a ledger. -/
def replay (key_state : KeyState) (es : List KeyEvent) : KeyState :=
  es.foldl replayEvent key_state

/-- Whether a sink call actually changes the ledger it meets. -/
def KeyEvent.isEff (key_state : KeyState) : KeyEvent → Bool
  | .press k => !(key_state k)
  | .release k => key_state k

/-- The net key assertions of a sink call sequence from a starting ledger:
the calls that actually flip a key, redundant repeats dropped. -/
def netFilter (key_state : KeyState) : List KeyEvent → List KeyEvent
  | [] => []
  | e :: rest =>
    if e.isEff key_state then e :: netFilter (replayEvent key_state e) rest
    else netFilter (replayEvent key_state e) rest

/-- A gamepad at rest: connected with a given id, reporting nothing. -/
def neutralPad (did : Nat) : Gamepad :=
  { id := did, axis_data := fun _ => none, button_data := fun _ => none }

/-- The everything-up ledger the process starts with. -/
def emptyLedger : KeyState := fun _ => false

/-- A result is faithful to a starting ledger when replaying its sink calls
onto that ledger lands on its final ledger. -/
def Faithful (s : KeyState) (p : KeyState × List KeyEvent) : Prop :=
  replay s p.2 = p.1

/-- Two results agree up to redundant sink calls: same final ledger, same
net key assertions from the starting ledger, and both faithful to it. -/
def EmEquiv (s : KeyState) (p q : KeyState × List KeyEvent) : Prop :=
  p.1 = q.1 ∧ netFilter s p.2 = netFilter s q.2 ∧ Faithful s p ∧ Faithful s q

/-- The axis rule of end-to-end scenario A: LeftStickX on device 0 with
threshold 0.3, high key D, low key A; the first rule of mainConfig. -/
def scenarioRule : AxisMapping :=
  { axis := Axis.LeftStickX, high_key := Key.KeyD, low_key := Key.KeyA
  , threshold := q3_10 }

/-- A device 0 snapshot reporting value v on LeftStickX and nothing else. -/
def scenarioPad (v : ℚ) : Gamepad :=
  { id := 0
  , axis_data := fun a => if a = Axis.LeftStickX then some v else none
  , button_data := fun _ => none }

/-- Thread the ledger through a value sequence with the scenario rule,
recording the emissions of every step separately. -/
def scenarioTrace (vs : List ℚ) (s : KeyState) : KeyState × List (List KeyEvent) :=
  match vs with
  | [] => (s, [])
  | v :: rest =>
    let p := scenarioRule.apply_mapping s (scenarioPad v)
    let q := scenarioTrace rest p.1
    (q.1, p.2 :: q.2)

/-- A degenerate but constructible axis rule whose low and high key are the
same key; the spec only recommends, and the code never checks, that they
differ. -/
def aliasRule : AxisMapping :=
  { axis := Axis.LeftStickX, high_key := Key.KeyA, low_key := Key.KeyA
  , threshold := q3_10 }

/-- The button rule South to Space from the second mapping of main(). -/
def southSpace : ButtonMapping := { button := Button.South, key := Key.Space }

/-- A minimal mapping for device 0 holding one button rule. -/
def truncMapping : ControllerMapping :=
  { controller_id := 0, axis_mappings := [], button_mappings := [southSpace] }

/-- A gamepad whose usize id is 2 to the 32, which the cast id as u32 in
ControllerMapping::apply_mapping truncates to 0, with South held down. -/
def truncPad : Gamepad :=
  { id := 2 ^ 32
  , axis_data := fun _ => none
  , button_data := fun b => if b = Button.South then some 1 else none }

/-- A config in which an axis rule and a button rule fight over Space. -/
def clashConfig : Config :=
  { controller_mappings :=
    [ { controller_id := 0
      , axis_mappings :=
        [ { axis := Axis.LeftStickX, high_key := Key.Space, low_key := Key.KeyA
          , threshold := q3_10 } ]
      , button_mappings := [southSpace] } ] }

/-- A device 0 snapshot holding LeftStickX at 0.7 and no buttons. -/
def clashPad : Gamepad :=
  { id := 0
  , axis_data := fun a => if a = Axis.LeftStickX then some q7_10 else none
  , button_data := fun _ => none }

/-- The invariant the mode equivalence argument carries: the world is the
two devices of main() and every rule of either mapping has last seen its
current input value, so its postcondition holds against the ledger. -/
def InvMain (w : World) (s : KeyState) : Prop :=
  ∃ G0 G1, w = [G0, G1] ∧ G0.id = 0 ∧ G1.id = 1 ∧
    (∀ r ∈ cm0.rules, r.Holds G0 s) ∧ (∀ r ∈ cm1.rules, r.Holds G1 s)

/-!  Basic lemmas about the ledger operations. -/

theorem key_press_once_self (s : KeyState) (key : Key) :
    (key_press_once s key).1 key = true := by
  by_cases h : s key <;> simp [key_press_once, h]

theorem key_release_once_self (s : KeyState) (key : Key) :
    (key_release_once s key).1 key = false := by
  by_cases h : s key <;> simp [key_release_once, h]

theorem key_press_once_frame (s : KeyState) (key k : Key) (h : k ≠ key) :
    (key_press_once s key).1 k = s k := by
  by_cases hs : s key <;> simp [key_press_once, hs, Function.update_noteq h]

theorem key_release_once_frame (s : KeyState) (key k : Key) (h : k ≠ key) :
    (key_release_once s key).1 k = s k := by
  by_cases hs : s key <;> simp [key_release_once, hs, Function.update_noteq h]

theorem key_press_once_emits (s : KeyState) (key : Key) :
    (key_press_once s key).2 = if s key then [] else [KeyEvent.press key] := by
  by_cases h : s key <;> simp [key_press_once, h]

theorem key_release_once_emits (s : KeyState) (key : Key) :
    (key_release_once s key).2 = if s key then [KeyEvent.release key] else [] := by
  by_cases h : s key <;> simp [key_release_once, h]

theorem key_press_once_of_down (s : KeyState) (key : Key) (h : s key = true) :
    key_press_once s key = (s, []) := by
  simp [key_press_once, h]

theorem key_release_once_of_up (s : KeyState) (key : Key) (h : s key = false) :
    key_release_once s key = (s, []) := by
  simp [key_release_once, h]

/-!  Replay and net filtering of sink call sequences. -/

theorem replay_append (s : KeyState) (e1 e2 : List KeyEvent) :
    replay s (e1 ++ e2) = replay (replay s e1) e2 := by
  simp [replay, List.foldl_append]

theorem replay_cons (s : KeyState) (e : KeyEvent) (rest : List KeyEvent) :
    replay s (e :: rest) = replay (replayEvent s e) rest := rfl

theorem netFilter_append (s : KeyState) (e1 e2 : List KeyEvent) :
    netFilter s (e1 ++ e2) = netFilter s e1 ++ netFilter (replay s e1) e2 := by
  induction e1 generalizing s with
  | nil => simp [netFilter, replay]
  | cons e rest ih =>
    by_cases h : e.isEff s <;>
      simp [netFilter, h, ih, replay_cons]

theorem faithful_seq {s : KeyState} {p q : KeyState × List KeyEvent}
    (hp : Faithful s p) (hq : Faithful p.1 q) :
    Faithful s (q.1, p.2 ++ q.2) := by
  unfold Faithful at *
  simp [replay_append, hp, hq]

theorem faithful_id (s : KeyState) : Faithful s (s, []) := rfl

theorem faithful_press (s : KeyState) (key : Key) :
    Faithful s (key_press_once s key) := by
  by_cases h : s key <;>
    simp [Faithful, key_press_once, h, replay, replayEvent]

theorem faithful_release (s : KeyState) (key : Key) :
    Faithful s (key_release_once s key) := by
  by_cases h : s key <;>
    simp [Faithful, key_release_once, h, replay, replayEvent]

theorem faithful_press_forced (s : KeyState) (key : Key) :
    Faithful s (key_press_forced s key) := by
  simp [Faithful, key_press_forced, replay, replayEvent]

theorem faithful_release_forced (s : KeyState) (key : Key) :
    Faithful s (key_release_forced s key) := by
  simp [Faithful, key_release_forced, replay, replayEvent]

/-!  Faithfulness and frame lemmas for rule evaluation. -/

theorem AxisMapping.faithful_axis_value (m : AxisMapping) (s : KeyState) (v : ℚ) :
    Faithful s (m.apply_value s v) := by
  unfold AxisMapping.apply_value
  split_ifs with h1 h2
  · exact faithful_press s m.low_key
  · exact faithful_press s m.high_key
  · exact faithful_seq (faithful_release s m.low_key)
      (faithful_release _ m.high_key)

theorem ButtonMapping.faithful_button_value (m : ButtonMapping) (s : KeyState) (v : ℚ) :
    Faithful s (m.apply_value s v) := by
  unfold ButtonMapping.apply_value
  split_ifs with h
  · exact faithful_press s m.key
  · exact faithful_release s m.key

theorem GRule.faithful_run (r : GRule) (s : KeyState) (g : Gamepad) :
    Faithful s (r.run s g) := by
  cases r with
  | axis m => exact AxisMapping.faithful_axis_value m s _
  | button m => exact ButtonMapping.faithful_button_value m s _

theorem AxisMapping.axis_value_frame (m : AxisMapping) (s : KeyState) (v : ℚ)
    (k : Key) (h1 : k ≠ m.low_key) (h2 : k ≠ m.high_key) :
    (m.apply_value s v).1 k = s k := by
  unfold AxisMapping.apply_value
  split_ifs with hc1 hc2
  · exact key_press_once_frame s m.low_key k h1
  · exact key_press_once_frame s m.high_key k h2
  · show (key_release_once (key_release_once s m.low_key).1 m.high_key).1 k = s k
    rw [key_release_once_frame _ _ _ h2, key_release_once_frame _ _ _ h1]

theorem ButtonMapping.button_value_frame (m : ButtonMapping) (s : KeyState) (v : ℚ)
    (k : Key) (h : k ≠ m.key) :
    (m.apply_value s v).1 k = s k := by
  unfold ButtonMapping.apply_value
  split_ifs with hc
  · exact key_press_once_frame s m.key k h
  · exact key_release_once_frame s m.key k h

theorem GRule.run_frame (r : GRule) (s : KeyState) (g : Gamepad) (k : Key)
    (h : k ∉ r.keys) : (r.run s g).1 k = s k := by
  cases r with
  | axis m =>
    simp only [GRule.keys, List.mem_cons, List.not_mem_nil, or_false, not_or] at h
    exact AxisMapping.axis_value_frame m s _ k h.1 h.2
  | button m =>
    simp only [GRule.keys, List.mem_cons, List.not_mem_nil, or_false, not_or] at h
    exact ButtonMapping.button_value_frame m s _ k h

theorem mem_key_press_once_emits {s : KeyState} {key : Key} {e : KeyEvent}
    (he : e ∈ (key_press_once s key).2) : e = KeyEvent.press key := by
  by_cases hs : s key <;> simp [key_press_once, hs] at he
  exact he

theorem mem_key_release_once_emits {s : KeyState} {key : Key} {e : KeyEvent}
    (he : e ∈ (key_release_once s key).2) : e = KeyEvent.release key := by
  by_cases hs : s key <;> simp [key_release_once, hs] at he
  exact he

theorem AxisMapping.axis_emits_keys (m : AxisMapping) (s : KeyState) (v : ℚ) :
    ∀ e ∈ (m.apply_value s v).2, e.key = m.low_key ∨ e.key = m.high_key := by
  unfold AxisMapping.apply_value
  split_ifs with h1 h2
  · intro e he
    rw [mem_key_press_once_emits he]
    left; rfl
  · intro e he
    rw [mem_key_press_once_emits he]
    right; rfl
  · intro e he
    simp only [List.mem_append] at he
    rcases he with he | he
    · rw [mem_key_release_once_emits he]; left; rfl
    · rw [mem_key_release_once_emits he]; right; rfl

theorem ButtonMapping.button_emits_keys (m : ButtonMapping) (s : KeyState)
    (v : ℚ) : ∀ e ∈ (m.apply_value s v).2, e.key = m.key := by
  unfold ButtonMapping.apply_value
  split_ifs with h1
  · intro e he
    rw [mem_key_press_once_emits he]; rfl
  · intro e he
    rw [mem_key_release_once_emits he]; rfl

theorem GRule.run_emits_keys (r : GRule) (s : KeyState) (g : Gamepad) :
    ∀ e ∈ (r.run s g).2, e.key ∈ r.keys := by
  cases r with
  | axis m =>
    intro e he
    rcases AxisMapping.axis_emits_keys m s _ e he with h | h <;> simp [GRule.keys, h]
  | button m =>
    intro e he
    simp [GRule.keys, ButtonMapping.button_emits_keys m s _ e he]

/-!  The postcondition machinery: a rule whose postcondition already holds is
a no-op, every rule establishes its own postcondition, and rules with
disjoint keys preserve each other. -/

theorem GRule.holds_congr {r : GRule} {g : Gamepad} {s s' : KeyState}
    (h : ∀ k ∈ r.keys, s k = s' k) (hh : r.Holds g s) : r.Holds g s' := by
  cases r with
  | axis m =>
    have hl := h m.low_key (by simp [GRule.keys])
    have hhk := h m.high_key (by simp [GRule.keys])
    obtain ⟨a, b, c⟩ := hh
    exact ⟨fun h1 => hl.symm.trans (a h1), fun h1 h2 => hhk.symm.trans (b h1 h2),
      fun h1 h2 => ⟨hl.symm.trans (c h1 h2).1, hhk.symm.trans (c h1 h2).2⟩⟩
  | button m =>
    have hk := h m.key (by simp [GRule.keys])
    obtain ⟨a, b⟩ := hh
    exact ⟨fun h1 => hk.symm.trans (a h1), fun h1 => hk.symm.trans (b h1)⟩

theorem GRule.run_of_holds {r : GRule} {g : Gamepad} {s : KeyState}
    (h : r.Holds g s) : r.run s g = (s, []) := by
  cases r with
  | axis m =>
    obtain ⟨a, b, c⟩ := h
    show m.apply_value s (g.axisValue m.axis) = (s, [])
    unfold AxisMapping.apply_value
    split_ifs with h1 h2
    · simp [key_press_once, a h1]
    · simp [key_press_once, b h1 h2]
    · obtain ⟨hl, hh⟩ := c h1 h2
      simp [key_release_once, hl, hh]
  | button m =>
    obtain ⟨a, b⟩ := h
    show m.apply_value s (g.buttonValue m.button) = (s, [])
    unfold ButtonMapping.apply_value
    split_ifs with h1
    · simp [key_press_once, a h1]
    · simp [key_release_once, b h1]

theorem GRule.run_establishes (r : GRule) (s : KeyState) (g : Gamepad) :
    r.Holds g ((r.run s g).1) := by
  cases r with
  | axis m =>
    show m.Holds (g.axisValue m.axis) ((m.apply_value s (g.axisValue m.axis)).1)
    unfold AxisMapping.apply_value
    split_ifs with h1 h2
    · exact ⟨fun _ => key_press_once_self s m.low_key,
        fun hn _ => absurd h1 hn, fun hn _ => absurd h1 hn⟩
    · exact ⟨fun hx => absurd hx h1,
        fun _ _ => key_press_once_self s m.high_key,
        fun _ hn => absurd h2 hn⟩
    · refine ⟨fun hx => absurd hx h1, fun _ hx => absurd hx h2, fun _ _ => ?_⟩
      constructor
      · by_cases hlh : m.low_key = m.high_key
        · rw [hlh]; exact key_release_once_self _ m.high_key
        · show (key_release_once (key_release_once s m.low_key).1 m.high_key).1
              m.low_key = false
          rw [key_release_once_frame _ _ _ hlh]
          exact key_release_once_self s m.low_key
      · exact key_release_once_self _ m.high_key
  | button m =>
    show m.Holds (g.buttonValue m.button) ((m.apply_value s (g.buttonValue m.button)).1)
    unfold ButtonMapping.apply_value
    split_ifs with h1
    · exact ⟨fun _ => key_press_once_self s m.key, fun hn => absurd h1 hn⟩
    · exact ⟨fun hx => absurd hx h1, fun _ => key_release_once_self s m.key⟩

theorem GRule.holds_preserved {r r' : GRule} {g g' : Gamepad} {s : KeyState}
    (hd : KeysDisjoint r r') (h : r.Holds g s) : r.Holds g ((r'.run s g').1) :=
  GRule.holds_congr (fun k hk => (r'.run_frame s g' k (hd k hk)).symm) h

/-!  Lifting the rule lemmas to rule lists. -/

theorem runRules_cons (r : GRule) (rest : List GRule) (s : KeyState) (g : Gamepad) :
    runRules (r :: rest) s g =
      ((runRules rest (r.run s g).1 g).1,
        (r.run s g).2 ++ (runRules rest (r.run s g).1 g).2) := rfl

theorem runRules_frame (rs : List GRule) (s : KeyState) (g : Gamepad) (k : Key)
    (h : ∀ r ∈ rs, k ∉ r.keys) : (runRules rs s g).1 k = s k := by
  induction rs generalizing s with
  | nil => rfl
  | cons r rest ih =>
    rw [runRules_cons]
    show (runRules rest (r.run s g).1 g).1 k = s k
    rw [ih _ (fun r' hr' => h r' (List.mem_cons_of_mem r hr'))]
    exact r.run_frame s g k (h r (List.mem_cons_self r rest))

theorem runRules_holds_preserved {r : GRule} {g : Gamepad} {rs : List GRule}
    {g' : Gamepad} {s : KeyState} (hd : ∀ r' ∈ rs, KeysDisjoint r r')
    (h : r.Holds g s) : r.Holds g ((runRules rs s g').1) :=
  GRule.holds_congr
    (fun k hk => (runRules_frame rs s g' k (fun r' hr' => hd r' hr' k hk)).symm) h

theorem runRules_establishes {rs : List GRule} (hp : rs.Pairwise KeysDisjoint)
    (s : KeyState) (g : Gamepad) :
    ∀ r ∈ rs, r.Holds g ((runRules rs s g).1) := by
  induction rs generalizing s with
  | nil => intro r hr; cases hr
  | cons r rest ih =>
    rcases List.pairwise_cons.mp hp with ⟨hd, hp'⟩
    intro r' hr'
    rw [runRules_cons]
    rcases List.mem_cons.mp hr' with rfl | hmem
    · exact runRules_holds_preserved hd (r'.run_establishes s g)
    · exact ih hp' _ r' hmem

theorem runRules_noop {rs : List GRule} {s : KeyState} {g : Gamepad}
    (h : ∀ r ∈ rs, r.Holds g s) : runRules rs s g = (s, []) := by
  induction rs with
  | nil => rfl
  | cons r rest ih =>
    rw [runRules_cons, GRule.run_of_holds (h r (List.mem_cons_self r rest))]
    rw [ih (fun r' hr' => h r' (List.mem_cons_of_mem r hr'))]
    rfl

theorem faithful_runRules (rs : List GRule) (s : KeyState) (g : Gamepad) :
    Faithful s (runRules rs s g) := by
  induction rs generalizing s with
  | nil => exact faithful_id s
  | cons r rest ih =>
    rw [runRules_cons]
    exact faithful_seq (r.faithful_run s g) (ih _)

theorem runRules_append (xs ys : List GRule) (s : KeyState) (g : Gamepad) :
    runRules (xs ++ ys) s g =
      ((runRules ys (runRules xs s g).1 g).1,
        (runRules xs s g).2 ++ (runRules ys (runRules xs s g).1 g).2) := by
  induction xs generalizing s with
  | nil => rfl
  | cons r rest ih =>
    simp only [List.cons_append, runRules_cons, ih, List.append_assoc]

/-!  The mapping pass decomposes into one flattened rule list. -/

theorem runAxes_eq (ms : List AxisMapping) (s : KeyState) (g : Gamepad) :
    runAxes ms s g = runRules (ms.map GRule.axis) s g := by
  induction ms generalizing s with
  | nil => rfl
  | cons m rest ih => simp only [runAxes, List.map_cons, runRules_cons, ih]; rfl

theorem runButtons_eq (ms : List ButtonMapping) (s : KeyState) (g : Gamepad) :
    runButtons ms s g = runRules (ms.map GRule.button) s g := by
  induction ms generalizing s with
  | nil => rfl
  | cons m rest ih => simp only [runButtons, List.map_cons, runRules_cons, ih]; rfl

theorem ControllerMapping.apply_mapping_rules_eq (m : ControllerMapping) (s : KeyState)
    (g : Gamepad) :
    m.apply_mapping s g =
      runRules (if m.controller_id = g.id % 2 ^ 32 then m.rules else []) s g := by
  unfold ControllerMapping.apply_mapping
  by_cases h : m.controller_id = g.id % 2 ^ 32
  · simp only [h, if_pos, ite_not, if_neg, not_true_eq_false, if_true]
    rw [ControllerMapping.rules, runRules_append, ← runAxes_eq, ← runButtons_eq]
  · rw [if_pos h, if_neg h]
    rfl

theorem Config.apply_mapping_rulesFor_eq (c : Config) (s : KeyState) (g : Gamepad) :
    c.apply_mapping s g = runRules (c.rulesFor g) s g := by
  show runMappings c.controller_mappings s g =
    runRules (rulesForAux c.controller_mappings g.id) s g
  induction c.controller_mappings generalizing s with
  | nil => rfl
  | cons m rest ih =>
    show (_, _) = _
    rw [rulesForAux, runRules_append, ControllerMapping.apply_mapping_rules_eq m, ih]



/-!  Sanity: the constructor literals denote the decimals of the source. -/

theorem qHalf_eq : qHalf = 1/2 := by
  rw [qHalf, Rat.mk'_eq_divInt, Rat.divInt_eq_div]; norm_num

theorem q3_10_eq : q3_10 = 3/10 := by
  rw [q3_10, Rat.mk'_eq_divInt, Rat.divInt_eq_div]; norm_num

theorem q1_10_eq : q1_10 = 1/10 := by
  rw [q1_10, Rat.mk'_eq_divInt, Rat.divInt_eq_div]; norm_num

theorem q7_10_eq : q7_10 = 7/10 := by
  rw [q7_10, Rat.mk'_eq_divInt, Rat.divInt_eq_div]; norm_num

/-!  The claims. -/

/-- Claim C1, counterexample: running scenario A through the code, after the
fourth value, minus 0.5, the rule emits only press(A) and leaves D recorded
as down; the claimed emission release(D) then press(A), with D released at
that point, is not what the code does. -/
theorem scenarioA_claim_refuted :
    (scenarioTrace [0, qHalf, qHalf, -qHalf] emptyLedger).1 Key.KeyD = true ∧
    ((scenarioTrace [0, qHalf, qHalf, -qHalf, q1_10] emptyLedger).2)[3]? =
      some [KeyEvent.press Key.KeyA] ∧
    ((scenarioTrace [0, qHalf, qHalf, -qHalf, q1_10] emptyLedger).2)[3]? ≠
      some [KeyEvent.release Key.KeyD, KeyEvent.press Key.KeyA] := by
  decide

/-- Claim C1, amended: scenario A on the axis rule with threshold 0.3, high
key D, low key A over the values 0, 0.5, 0.5, minus 0.5, 0.1 emits nothing,
then press(D), then nothing, then press(A) with D still held, and finally
release(A) followed by release(D) in the dead zone; both keys end up. -/
theorem scenarioA_trace :
    (scenarioTrace [0, qHalf, qHalf, -qHalf, q1_10] emptyLedger).2 =
      [[], [KeyEvent.press Key.KeyD], [], [KeyEvent.press Key.KeyA],
        [KeyEvent.release Key.KeyA, KeyEvent.release Key.KeyD]] ∧
    (scenarioTrace [0, qHalf, qHalf, -qHalf, q1_10] emptyLedger).1 Key.KeyD = false ∧
    (scenarioTrace [0, qHalf, qHalf, -qHalf, q1_10] emptyLedger).1 Key.KeyA = false := by
  decide

/-- Claim C2, counterexample: from a ledger in which the key is already
down, two successive key_press_once calls emit zero key-down events, not
exactly one. -/
theorem press_twice_from_down_emits_nothing :
    ((key_press_once (fun _ => true) Key.KeyA).2 ++
        (key_press_once (key_press_once (fun _ => true) Key.KeyA).1 Key.KeyA).2) = [] ∧
    ¬ ((key_press_once (fun _ => true) Key.KeyA).2 ++
        (key_press_once (key_press_once (fun _ => true) Key.KeyA).1 Key.KeyA).2).length = 1 := by
  decide

/-- Claim C2, amended: for every ledger and key, the first key_press_once
emits exactly one key-down when the key was up and nothing when it was
already down, records the key as down, and a second call changes nothing
and emits nothing; dually for key_release_once, which emits one key-up
exactly when the key was down. -/
theorem ledger_ops_idempotent (s : KeyState) (key : Key) :
    (key_press_once s key).2 = (if s key then [] else [KeyEvent.press key]) ∧
    (key_press_once s key).1 key = true ∧
    key_press_once (key_press_once s key).1 key = ((key_press_once s key).1, []) ∧
    (key_release_once s key).2 = (if s key then [KeyEvent.release key] else []) ∧
    (key_release_once s key).1 key = false ∧
    key_release_once (key_release_once s key).1 key = ((key_release_once s key).1, []) :=
  ⟨key_press_once_emits s key, key_press_once_self s key,
    key_press_once_of_down _ key (key_press_once_self s key),
    key_release_once_emits s key, key_release_once_self s key,
    key_release_once_of_up _ key (key_release_once_self s key)⟩

/-- Claim C3: the three way branch of the axis rule: a value in the closed
dead zone interval releases low then high; only a value strictly below minus
threshold takes the press-low branch, only a value strictly above threshold
takes the press-high branch, and the guards are tested in exactly this
order, the press-high branch only after the press-low guard failed; under
distinct low and high keys, a press of either key pins down the branch. -/
theorem axis_branch_semantics (m : AxisMapping) (s : KeyState) (g : Gamepad) :
    (-m.threshold ≤ g.axisValue m.axis → g.axisValue m.axis ≤ m.threshold →
      m.apply_mapping s g =
        ((key_release_once (key_release_once s m.low_key).1 m.high_key).1,
          (key_release_once s m.low_key).2 ++
            (key_release_once (key_release_once s m.low_key).1 m.high_key).2)) ∧
    (g.axisValue m.axis < -m.threshold →
      m.apply_mapping s g = key_press_once s m.low_key) ∧
    (¬ g.axisValue m.axis < -m.threshold → g.axisValue m.axis > m.threshold →
      m.apply_mapping s g = key_press_once s m.high_key) ∧
    (¬ g.axisValue m.axis < -m.threshold → ¬ g.axisValue m.axis > m.threshold →
      m.apply_mapping s g =
        ((key_release_once (key_release_once s m.low_key).1 m.high_key).1,
          (key_release_once s m.low_key).2 ++
            (key_release_once (key_release_once s m.low_key).1 m.high_key).2)) ∧
    (m.low_key ≠ m.high_key → KeyEvent.press m.low_key ∈ (m.apply_mapping s g).2 →
      g.axisValue m.axis < -m.threshold) ∧
    (m.low_key ≠ m.high_key → KeyEvent.press m.high_key ∈ (m.apply_mapping s g).2 →
      g.axisValue m.axis > m.threshold) := by
  have hlow : ∀ _ : g.axisValue m.axis < -m.threshold,
      m.apply_mapping s g = key_press_once s m.low_key := by
    intro h1
    show m.apply_value s (g.axisValue m.axis) = _
    unfold AxisMapping.apply_value
    rw [if_pos h1]
  have hhigh : ∀ (_ : ¬ g.axisValue m.axis < -m.threshold)
      (_ : g.axisValue m.axis > m.threshold),
      m.apply_mapping s g = key_press_once s m.high_key := by
    intro h1 h2
    show m.apply_value s (g.axisValue m.axis) = _
    unfold AxisMapping.apply_value
    rw [if_neg h1, if_pos h2]
  have hdead : ∀ (_ : ¬ g.axisValue m.axis < -m.threshold)
      (_ : ¬ g.axisValue m.axis > m.threshold),
      m.apply_mapping s g =
        ((key_release_once (key_release_once s m.low_key).1 m.high_key).1,
          (key_release_once s m.low_key).2 ++
            (key_release_once (key_release_once s m.low_key).1 m.high_key).2) := by
    intro h1 h2
    show m.apply_value s (g.axisValue m.axis) = _
    unfold AxisMapping.apply_value
    rw [if_neg h1, if_neg h2]
  refine ⟨fun h1 h2 => hdead (not_lt.mpr h1) (not_lt.mpr h2), hlow, hhigh, hdead,
    ?_, ?_⟩
  · intro hne hmem
    by_cases h1 : g.axisValue m.axis < -m.threshold
    · exact h1
    · exfalso
      by_cases h2 : g.axisValue m.axis > m.threshold
      · rw [hhigh h1 h2] at hmem
        exact hne (KeyEvent.press.inj (mem_key_press_once_emits hmem))
      · rw [hdead h1 h2] at hmem
        rcases List.mem_append.mp hmem with h | h
        · exact KeyEvent.noConfusion (mem_key_release_once_emits h)
        · exact KeyEvent.noConfusion (mem_key_release_once_emits h)
  · intro hne hmem
    by_cases h1 : g.axisValue m.axis < -m.threshold
    · exfalso
      rw [hlow h1] at hmem
      exact hne (KeyEvent.press.inj (mem_key_press_once_emits hmem)).symm
    · by_cases h2 : g.axisValue m.axis > m.threshold
      · exact h2
      · exfalso
        rw [hdead h1 h2] at hmem
        rcases List.mem_append.mp hmem with h | h
        · exact KeyEvent.noConfusion (mem_key_release_once_emits h)
        · exact KeyEvent.noConfusion (mem_key_release_once_emits h)

/-- Claim C3, witness: at the boundary value exactly equal to the threshold
the rule of scenario A takes the dead zone branch and releases both keys. -/
theorem axis_branch_semantics_witness :
    scenarioRule.apply_mapping emptyLedger (scenarioPad q3_10) =
      ((key_release_once (key_release_once emptyLedger Key.KeyA).1 Key.KeyD).1,
        (key_release_once emptyLedger Key.KeyA).2 ++
          (key_release_once (key_release_once emptyLedger Key.KeyA).1 Key.KeyD).2) :=
  (axis_branch_semantics scenarioRule emptyLedger (scenarioPad q3_10)).1
    (by decide) (by decide)

/-- Claim C4, counterexample: for the constructible axis rule whose low and
high key coincide, a value below minus threshold presses that key, so the
high-key ledger entry changes and a transition is emitted for it; the frame
property as stated, over every axis rule, is false. -/
theorem axis_alias_frame_broken :
    (scenarioPad (-qHalf)).axisValue aliasRule.axis < -aliasRule.threshold ∧
    (aliasRule.apply_mapping emptyLedger (scenarioPad (-qHalf))).1 aliasRule.high_key
      = true ∧
    emptyLedger aliasRule.high_key = false ∧
    KeyEvent.press aliasRule.high_key ∈
      (aliasRule.apply_mapping emptyLedger (scenarioPad (-qHalf))).2 := by
  decide

/-- Claim C4, amended: for every axis rule whose low key and high key
differ, a value strictly below minus threshold performs exactly
key_press_once of the low key, leaves every other key including the high
key untouched, and emits no transition naming the high key; symmetrically a
value strictly above threshold touches only the high key. -/
theorem axis_press_frame (m : AxisMapping) (s : KeyState) (g : Gamepad)
    (hne : m.low_key ≠ m.high_key) :
    (g.axisValue m.axis < -m.threshold →
      m.apply_mapping s g = key_press_once s m.low_key ∧
      (∀ k, k ≠ m.low_key → (m.apply_mapping s g).1 k = s k) ∧
      (m.apply_mapping s g).1 m.high_key = s m.high_key ∧
      (∀ e ∈ (m.apply_mapping s g).2, e.key ≠ m.high_key)) ∧
    (¬ g.axisValue m.axis < -m.threshold → g.axisValue m.axis > m.threshold →
      m.apply_mapping s g = key_press_once s m.high_key ∧
      (∀ k, k ≠ m.high_key → (m.apply_mapping s g).1 k = s k) ∧
      (m.apply_mapping s g).1 m.low_key = s m.low_key ∧
      (∀ e ∈ (m.apply_mapping s g).2, e.key ≠ m.low_key)) := by
  constructor
  · intro hv
    have heq : m.apply_mapping s g = key_press_once s m.low_key := by
      show m.apply_value s (g.axisValue m.axis) = _
      unfold AxisMapping.apply_value
      rw [if_pos hv]
    refine ⟨heq, ?_, ?_, ?_⟩
    · intro k hk
      rw [heq]
      exact key_press_once_frame s m.low_key k hk
    · rw [heq]
      exact key_press_once_frame s m.low_key m.high_key (Ne.symm hne)
    · intro e he
      rw [heq] at he
      rw [mem_key_press_once_emits he]
      exact hne
  · intro hn hv
    have heq : m.apply_mapping s g = key_press_once s m.high_key := by
      show m.apply_value s (g.axisValue m.axis) = _
      unfold AxisMapping.apply_value
      rw [if_neg hn, if_pos hv]
    refine ⟨heq, ?_, ?_, ?_⟩
    · intro k hk
      rw [heq]
      exact key_press_once_frame s m.high_key k hk
    · rw [heq]
      exact key_press_once_frame s m.high_key m.low_key hne
    · intro e he
      rw [heq] at he
      rw [mem_key_press_once_emits he]
      exact Ne.symm hne

/-- Claim C4, witness: for scenario rule A at value minus 0.5, the high key
D keeps its ledger entry while only A is pressed. -/
theorem axis_press_frame_witness :
    (scenarioRule.apply_mapping emptyLedger (scenarioPad (-qHalf))).1 Key.KeyD =
      emptyLedger Key.KeyD :=
  ((axis_press_frame scenarioRule emptyLedger (scenarioPad (-qHalf))
    (by decide)).1 (by decide)).2.2.1

/-- Claim C6, counterexample: a gamepad whose usize id is 2 to the 32
differs from the configured controller id 0, yet the cast id as u32 makes
the mapping apply and emit a key press, so device isolation as stated over
every differing id fails. -/
theorem device_id_truncation_leak :
    truncPad.id ≠ truncMapping.controller_id ∧
    (truncMapping.apply_mapping emptyLedger truncPad).2 =
      [KeyEvent.press Key.Space] ∧
    (truncMapping.apply_mapping emptyLedger truncPad).1 Key.Space = true := by
  decide

/-- Claim C6, amended: a controller mapping is a strict no-op, emitting
nothing and leaving the ledger untouched, for every gamepad whose id
truncated to u32, that is reduced modulo 2 to the 32, differs from the
configured controller id; for ids below 2 to the 32 this is exactly a
differing device id. -/
theorem device_isolation_mod (m : ControllerMapping) (s : KeyState) (g : Gamepad)
    (h : m.controller_id ≠ g.id % 2 ^ 32) :
    m.apply_mapping s g = (s, []) := by
  unfold ControllerMapping.apply_mapping
  rw [if_pos h]

/-- Claim C6, witness: the mapping for controller 0 ignores a device with
id 5. -/
theorem device_isolation_mod_witness :
    truncMapping.apply_mapping emptyLedger (neutralPad 5) = (emptyLedger, []) :=
  device_isolation_mod truncMapping emptyLedger (neutralPad 5) (by decide)

/-- Claim C7: a button rule presses its key exactly when the reported value
is strictly above 0.5 and releases it otherwise; a value of exactly 0.5 and
a missing reading, which reads as 0.0, both release. -/
theorem button_value_semantics (m : ButtonMapping) (s : KeyState) (g : Gamepad) :
    (g.buttonValue m.button > qHalf →
      m.apply_mapping s g = key_press_once s m.key) ∧
    (¬ g.buttonValue m.button > qHalf →
      m.apply_mapping s g = key_release_once s m.key) ∧
    (g.buttonValue m.button = qHalf →
      m.apply_mapping s g = key_release_once s m.key) ∧
    (g.button_data m.button = none →
      m.apply_mapping s g = key_release_once s m.key) := by
  have hpress : ∀ _ : g.buttonValue m.button > qHalf,
      m.apply_mapping s g = key_press_once s m.key := by
    intro h
    show m.apply_value s (g.buttonValue m.button) = _
    unfold ButtonMapping.apply_value
    rw [if_pos h]
  have hrel : ∀ _ : ¬ g.buttonValue m.button > qHalf,
      m.apply_mapping s g = key_release_once s m.key := by
    intro h
    show m.apply_value s (g.buttonValue m.button) = _
    unfold ButtonMapping.apply_value
    rw [if_neg h]
  refine ⟨hpress, hrel, ?_, ?_⟩
  · intro h
    exact hrel (by rw [h]; exact lt_irrefl qHalf)
  · intro h
    refine hrel ?_
    have hv : g.buttonValue m.button = 0 := by
      unfold Gamepad.buttonValue
      rw [h]
      rfl
    rw [hv]
    decide

/-- Claim C7, witness: a device reporting nothing releases the key of the
South to Space rule. -/
theorem button_value_semantics_witness :
    southSpace.apply_mapping emptyLedger (neutralPad 1) =
      key_release_once emptyLedger Key.Space :=
  (button_value_semantics southSpace emptyLedger (neutralPad 1)).2.2.2 rfl

/-- Claim C8: a missing reading is neutral, never an error: an axis rule
evaluates exactly as on the value 0.0, which for the nonnegative thresholds
the configuration invariant demands lands in the dead zone and releases
both keys; a button rule evaluates as on 0.0 and releases its key. -/
theorem missing_data_neutral (am : AxisMapping) (bm : ButtonMapping)
    (s : KeyState) (g : Gamepad) :
    (g.axis_data am.axis = none →
      am.apply_mapping s g = am.apply_value s 0) ∧
    (g.axis_data am.axis = none → 0 ≤ am.threshold →
      am.apply_mapping s g =
        ((key_release_once (key_release_once s am.low_key).1 am.high_key).1,
          (key_release_once s am.low_key).2 ++
            (key_release_once (key_release_once s am.low_key).1 am.high_key).2)) ∧
    (g.button_data bm.button = none →
      bm.apply_mapping s g = bm.apply_value s 0) ∧
    (g.button_data bm.button = none →
      bm.apply_mapping s g = key_release_once s bm.key) := by
  have hva : g.axis_data am.axis = none → g.axisValue am.axis = 0 := by
    intro h
    unfold Gamepad.axisValue
    rw [h]
    rfl
  have hvb : g.button_data bm.button = none → g.buttonValue bm.button = 0 := by
    intro h
    unfold Gamepad.buttonValue
    rw [h]
    rfl
  refine ⟨?_, ?_, ?_, ?_⟩
  · intro h
    show am.apply_value s (g.axisValue am.axis) = _
    rw [hva h]
  · intro h ht
    show am.apply_value s (g.axisValue am.axis) = _
    rw [hva h]
    unfold AxisMapping.apply_value
    rw [if_neg (not_lt.mpr (neg_nonpos.mpr ht)), if_neg (not_lt.mpr ht)]
  · intro h
    show bm.apply_value s (g.buttonValue bm.button) = _
    rw [hvb h]
  · intro h
    show bm.apply_value s (g.buttonValue bm.button) = _
    rw [hvb h]
    unfold ButtonMapping.apply_value
    rw [if_neg (by decide)]

/-- Claim C8, witness: a silent device leaves scenario rule A releasing both
keys through the dead zone branch. -/
theorem missing_data_neutral_witness :
    scenarioRule.apply_mapping emptyLedger (neutralPad 0) =
      ((key_release_once (key_release_once emptyLedger Key.KeyA).1 Key.KeyD).1,
        (key_release_once emptyLedger Key.KeyA).2 ++
          (key_release_once (key_release_once emptyLedger Key.KeyA).1 Key.KeyD).2) :=
  (missing_data_neutral scenarioRule southSpace emptyLedger (neutralPad 0)).2.1
    rfl (by decide)

/-- Claim C9, counterexample: in a config whose axis rule and button rule
fight over Space, a second Config::apply_mapping pass against the unchanged
snapshot emits again, a press and then a release of Space, so the whole pass is
not idempotent for every config. -/
theorem double_pass_emits_again :
    (clashConfig.apply_mapping
        (clashConfig.apply_mapping emptyLedger clashPad).1 clashPad).2 =
      [KeyEvent.press Key.Space, KeyEvent.release Key.Space] ∧
    (clashConfig.apply_mapping
        (clashConfig.apply_mapping emptyLedger clashPad).1 clashPad).2 ≠ [] := by
  decide

/-- Claim C9, amended: whenever the rules the pass evaluates against the
gamepad own pairwise disjoint key sets, which holds for the shipped
configuration, a second Config::apply_mapping pass against the same
snapshot leaves the ledger exactly where the first pass left it and emits
nothing. -/
theorem apply_mapping_idempotent (c : Config) (s : KeyState) (g : Gamepad)
    (hp : (c.rulesFor g).Pairwise KeysDisjoint) :
    c.apply_mapping (c.apply_mapping s g).1 g = ((c.apply_mapping s g).1, []) := by
  rw [Config.apply_mapping_rulesFor_eq, Config.apply_mapping_rulesFor_eq]
  exact runRules_noop (runRules_establishes hp s g)

/-- Claim C9, witness: the shipped configuration is pass idempotent against
a silent device 0. -/
theorem apply_mapping_idempotent_witness :
    mainConfig.apply_mapping
        (mainConfig.apply_mapping emptyLedger (neutralPad 0)).1 (neutralPad 0) =
      ((mainConfig.apply_mapping emptyLedger (neutralPad 0)).1, []) :=
  apply_mapping_idempotent mainConfig emptyLedger (neutralPad 0) (by decide)

/-- Claim C10: Config::apply_mapping is a function of config, ledger and
snapshot, two runs on identical inputs giving identical final ledgers and
identical emission sequences, and it evaluates exactly the rules of the
matching controller mappings in configured order, axis rules before button
rules. -/
theorem apply_mapping_deterministic (c c' : Config) (s s' : KeyState)
    (g g' : Gamepad) (hc : c = c') (hs : s = s') (hg : g = g') :
    c.apply_mapping s g = c'.apply_mapping s' g' ∧
    c.apply_mapping s g = runRules (c.rulesFor g) s g := by
  subst hc
  subst hs
  subst hg
  exact ⟨rfl, Config.apply_mapping_rulesFor_eq c s g⟩

/-- Claim C10, witness: the decomposition at the shipped configuration and
a silent device. -/
theorem apply_mapping_deterministic_witness :
    mainConfig.apply_mapping emptyLedger (neutralPad 0) =
      runRules (mainConfig.rulesFor (neutralPad 0)) emptyLedger (neutralPad 0) :=
  (apply_mapping_deterministic mainConfig mainConfig emptyLedger emptyLedger
    (neutralPad 0) (neutralPad 0) rfl rfl rfl).2

/-!  Toward mode equivalence: how world updates move the read values. -/

theorem KeysDisjoint.symm {r r' : GRule} (h : KeysDisjoint r r') :
    KeysDisjoint r' r :=
  fun k hk hk' => h k hk' hk

theorem Gamepad.applyRaw_id (g : Gamepad) (e : RawEvent) : (g.applyRaw e).id = g.id := by
  cases e <;> rfl

theorem Gamepad.setAxis_axisValue_self (g : Gamepad) (a : Axis) (v : ℚ) :
    (g.setAxis a v).axisValue a = v := by
  unfold Gamepad.setAxis Gamepad.axisValue
  simp

theorem Gamepad.setAxis_axisValue_ne (g : Gamepad) (a a' : Axis) (v : ℚ)
    (h : a' ≠ a) : (g.setAxis a v).axisValue a' = g.axisValue a' := by
  unfold Gamepad.setAxis Gamepad.axisValue
  simp [Function.update_noteq h]

theorem Gamepad.setAxis_buttonValue (g : Gamepad) (a : Axis) (v : ℚ) (b : Button) :
    (g.setAxis a v).buttonValue b = g.buttonValue b := rfl

theorem Gamepad.setButton_buttonValue_self (g : Gamepad) (b : Button) (v : ℚ) :
    (g.setButton b v).buttonValue b = v := by
  unfold Gamepad.setButton Gamepad.buttonValue
  simp

theorem Gamepad.setButton_buttonValue_ne (g : Gamepad) (b b' : Button) (v : ℚ)
    (h : b' ≠ b) : (g.setButton b v).buttonValue b' = g.buttonValue b' := by
  unfold Gamepad.setButton Gamepad.buttonValue
  simp [Function.update_noteq h]

theorem Gamepad.setButton_axisValue (g : Gamepad) (b : Button) (v : ℚ) (a : Axis) :
    (g.setButton b v).axisValue a = g.axisValue a := rfl

theorem axis_holds_value_congr {m : AxisMapping} {g g' : Gamepad} {s : KeyState}
    (h : g.axisValue m.axis = g'.axisValue m.axis) :
    (GRule.axis m).Holds g s → (GRule.axis m).Holds g' s := by
  show m.Holds _ s → m.Holds _ s
  rw [h]
  exact id

theorem button_holds_value_congr {m : ButtonMapping} {g g' : Gamepad} {s : KeyState}
    (h : g.buttonValue m.button = g'.buttonValue m.button) :
    (GRule.button m).Holds g s → (GRule.button m).Holds g' s := by
  show m.Holds _ s → m.Holds _ s
  rw [h]
  exact id

/-!  The forced operations of the spec against the deduplicated ones of the
source: same ledger result, same net assertions. -/

theorem EmEquiv.of_eq {s : KeyState} {p q : KeyState × List KeyEvent}
    (h : p = q) (hf : Faithful s p) : EmEquiv s p q :=
  ⟨by rw [h], by rw [h], by rw [h] at hf ⊢; exact hf, by rw [← h]; exact hf⟩

theorem press_forced_equiv (s : KeyState) (k : Key) :
    EmEquiv s (key_press_once s k) (key_press_forced s k) := by
  by_cases h : s k
  · have hstate : Function.update s k true = s := by
      have : s k = true := h
      rw [← this, Function.update_eq_self]
    refine ⟨?_, ?_, faithful_press s k, faithful_press_forced s k⟩
    · rw [key_press_once_of_down s k h]
      show s = Function.update s k true
      rw [hstate]
    · rw [key_press_once_of_down s k h]
      show netFilter s [] = netFilter s [KeyEvent.press k]
      simp [netFilter, KeyEvent.isEff, h]
  · have heq : key_press_once s k = key_press_forced s k := by
      unfold key_press_once key_press_forced
      rw [if_neg h]
    exact EmEquiv.of_eq heq (faithful_press s k)

theorem release_forced_equiv (s : KeyState) (k : Key) :
    EmEquiv s (key_release_once s k) (key_release_forced s k) := by
  by_cases h : s k
  · have heq : key_release_once s k = key_release_forced s k := by
      unfold key_release_once key_release_forced
      rw [if_pos h]
    exact EmEquiv.of_eq heq (faithful_release s k)
  · have hfalse : s k = false := by
      cases hsk : s k
      · rfl
      · exact absurd hsk h
    have hstate : Function.update s k false = s := by
      rw [← hfalse, Function.update_eq_self]
    refine ⟨?_, ?_, faithful_release s k, faithful_release_forced s k⟩
    · rw [key_release_once_of_up s k hfalse]
      show s = Function.update s k false
      rw [hstate]
    · rw [key_release_once_of_up s k hfalse]
      show netFilter s [] = netFilter s [KeyEvent.release k]
      simp [netFilter, KeyEvent.isEff, hfalse]

theorem EmEquiv.seq {s : KeyState} {p q p' q' : KeyState × List KeyEvent}
    (h : EmEquiv s p q) (h' : EmEquiv p.1 p' q') :
    EmEquiv s (p'.1, p.2 ++ p'.2) (q'.1, q.2 ++ q'.2) := by
  obtain ⟨hst, hnet, hfp, hfq⟩ := h
  obtain ⟨hst', hnet', hfp', hfq'⟩ := h'
  refine ⟨hst', ?_, ?_, ?_⟩
  · show netFilter s (p.2 ++ p'.2) = netFilter s (q.2 ++ q'.2)
    rw [netFilter_append, netFilter_append]
    unfold Faithful at hfp hfq
    rw [hfp, hfq, ← hst, hnet, hnet']
  · show replay s (p.2 ++ p'.2) = p'.1
    rw [replay_append]
    unfold Faithful at hfp
    rw [hfp]
    exact hfp'
  · show replay s (q.2 ++ q'.2) = q'.1
    rw [replay_append]
    unfold Faithful at hfq
    rw [hfq, ← hst]
    exact hfq'

theorem discreteAxisRules_cons (m : AxisMapping) (rest : List AxisMapping)
    (a : Axis) (v : ℚ) (s : KeyState) :
    discreteAxisRules (m :: rest) a v s =
      ((discreteAxisRules rest a v
          ((if m.axis = a then m.apply_value s v else (s, [])).1)).1,
        (if m.axis = a then m.apply_value s v else (s, [])).2 ++
          (discreteAxisRules rest a v
            ((if m.axis = a then m.apply_value s v else (s, [])).1)).2) := rfl

theorem discreteButtonRules_cons (m : ButtonMapping) (rest : List ButtonMapping)
    (b : Button) (down : Bool) (s : KeyState) :
    discreteButtonRules (m :: rest) b down s =
      ((discreteButtonRules rest b down
          ((if m.button = b then
              (if down then key_press_forced s m.key else key_release_forced s m.key)
            else (s, [])).1)).1,
        (if m.button = b then
            (if down then key_press_forced s m.key else key_release_forced s m.key)
          else (s, [])).2 ++
          (discreteButtonRules rest b down
            ((if m.button = b then
                (if down then key_press_forced s m.key else key_release_forced s m.key)
              else (s, [])).1)).2) := rfl

/-- In discrete mode an axis change runs exactly the same ledger operations
as re-scanning the snapshot does, provided every axis rule of the mapping on
a different axis still has its postcondition and the rule keys are pairwise
disjoint. -/
theorem axis_rules_sim (ms : List AxisMapping) (a : Axis) (v : ℚ) (g : Gamepad)
    (hv : g.axisValue a = v) :
    ∀ s : KeyState, (ms.map GRule.axis).Pairwise KeysDisjoint →
      (∀ m ∈ ms, m.axis ≠ a → (GRule.axis m).Holds g s) →
      runRules (ms.map GRule.axis) s g = discreteAxisRules ms a v s := by
  induction ms with
  | nil =>
    intro s _ _
    rfl
  | cons m rest ih =>
    intro s hp h
    obtain ⟨hd, hp'⟩ := List.pairwise_cons.mp hp
    rw [List.map_cons, runRules_cons, discreteAxisRules_cons]
    by_cases hm : m.axis = a
    · rw [if_pos hm]
      have hrun : (GRule.axis m).run s g = m.apply_value s v := by
        show m.apply_mapping s g = _
        unfold AxisMapping.apply_mapping
        rw [hm, hv]
      have hhold : ∀ m' ∈ rest, m'.axis ≠ a →
          (GRule.axis m').Holds g ((m.apply_value s v).1) := by
        intro m' hm' hma
        have h0 := h m' (List.mem_cons_of_mem m hm') hma
        have hdisj : KeysDisjoint (GRule.axis m') (GRule.axis m) :=
          KeysDisjoint.symm (hd (GRule.axis m') (List.mem_map_of_mem _ hm'))
        rw [← hrun]
        exact GRule.holds_preserved hdisj h0
      rw [hrun, ih _ hp' hhold]
    · rw [if_neg hm]
      have hnoop : (GRule.axis m).run s g = (s, []) :=
        GRule.run_of_holds (h m (List.mem_cons_self m rest) hm)
      rw [hnoop, ih _ hp' (fun m' hm' hma => h m' (List.mem_cons_of_mem m hm') hma)]

/-- In discrete mode a button transition performs the same net ledger work
as re-scanning the snapshot: the forced press or release may re-emit a
redundant call, but the final ledger and the net assertions agree. -/
theorem button_rules_sim (ms : List ButtonMapping) (b : Button) (down : Bool)
    (g : Gamepad) (hv : g.buttonValue b = if down then 1 else 0) :
    ∀ s : KeyState, (ms.map GRule.button).Pairwise KeysDisjoint →
      (∀ m ∈ ms, m.button ≠ b → (GRule.button m).Holds g s) →
      EmEquiv s (runRules (ms.map GRule.button) s g)
        (discreteButtonRules ms b down s) := by
  induction ms with
  | nil =>
    intro s _ _
    exact ⟨rfl, rfl, faithful_id s, faithful_id s⟩
  | cons m rest ih =>
    intro s hp h
    obtain ⟨hd, hp'⟩ := List.pairwise_cons.mp hp
    rw [List.map_cons, runRules_cons, discreteButtonRules_cons]
    by_cases hm : m.button = b
    · rw [if_pos hm]
      have hhead : EmEquiv s ((GRule.button m).run s g)
          (if down then key_press_forced s m.key else key_release_forced s m.key) := by
        have hrun : (GRule.button m).run s g =
            m.apply_value s (if down then 1 else 0) := by
          show m.apply_mapping s g = _
          unfold ButtonMapping.apply_mapping
          rw [hm, hv]
        rw [hrun]
        cases down
        · have hval : m.apply_value s (if false then 1 else 0) =
              key_release_once s m.key := by
            unfold ButtonMapping.apply_value
            rw [if_neg (by decide)]
          rw [hval]
          exact release_forced_equiv s m.key
        · have hval : m.apply_value s (if true then 1 else 0) =
              key_press_once s m.key := by
            unfold ButtonMapping.apply_value
            rw [if_pos (by decide)]
          rw [hval]
          exact press_forced_equiv s m.key
      have hrest : EmEquiv ((GRule.button m).run s g).1
          (runRules (rest.map GRule.button) ((GRule.button m).run s g).1 g)
          (discreteButtonRules rest b down ((GRule.button m).run s g).1) := by
        apply ih _ hp'
        intro m' hm' hmb
        exact GRule.holds_preserved
          (KeysDisjoint.symm (hd (GRule.button m') (List.mem_map_of_mem _ hm')))
          (h m' (List.mem_cons_of_mem m hm') hmb)
      rw [← hhead.1]
      exact EmEquiv.seq hhead hrest
    · rw [if_neg hm]
      have hnoop : (GRule.button m).run s g = (s, []) :=
        GRule.run_of_holds (h m (List.mem_cons_self m rest) hm)
      rw [hnoop]
      exact EmEquiv.seq (EmEquiv.of_eq rfl (faithful_id s))
        (ih _ hp' (fun m' hm' hmb => h m' (List.mem_cons_of_mem m hm') hmb))

/-- One matching controller mapping: re-scanning the full snapshot after one
physical change does the same net work as dispatching just that change into
the relevant rules, provided rule keys are pairwise disjoint and every rule
not on the changed channel still has its postcondition. -/
theorem dispatch_sim (cm : ControllerMapping) (ev : RawEvent) (g' : Gamepad)
    (hp : cm.rules.Pairwise KeysDisjoint) (s : KeyState)
    (hv : match ev with
      | .AxisChanged a v => g'.axisValue a = v
      | .ButtonPressed b => g'.buttonValue b = 1
      | .ButtonReleased b => g'.buttonValue b = 0)
    (hA : ∀ m ∈ cm.axis_mappings,
      (match ev with | .AxisChanged a _ => m.axis ≠ a | _ => True) →
      (GRule.axis m).Holds g' s)
    (hB : ∀ m ∈ cm.button_mappings,
      (match ev with
        | .ButtonPressed b => m.button ≠ b
        | .ButtonReleased b => m.button ≠ b
        | _ => True) →
      (GRule.button m).Holds g' s) :
    EmEquiv s (runRules cm.rules s g') (discreteDispatch cm ev s) := by
  rw [ControllerMapping.rules] at hp
  obtain ⟨hpA, hpB, hpX⟩ := List.pairwise_append.mp hp
  rw [ControllerMapping.rules, runRules_append]
  cases ev with
  | AxisChanged a v =>
    have hax : runRules (cm.axis_mappings.map GRule.axis) s g' =
        discreteAxisRules cm.axis_mappings a v s :=
      axis_rules_sim _ a v g' hv _ hpA (fun m hm hma => hA m hm hma)
    have hbtn : runRules (cm.button_mappings.map GRule.button)
        ((runRules (cm.axis_mappings.map GRule.axis) s g').1) g' =
        ((runRules (cm.axis_mappings.map GRule.axis) s g').1, []) := by
      apply runRules_noop
      intro r hr
      rcases List.mem_map.mp hr with ⟨m, hm, rfl⟩
      refine runRules_holds_preserved (fun r' hr' => ?_) (hB m hm trivial)
      exact KeysDisjoint.symm (hpX r' hr' _ (List.mem_map_of_mem GRule.button hm))
    rw [hbtn]
    show EmEquiv s ((runRules (cm.axis_mappings.map GRule.axis) s g').1,
      (runRules (cm.axis_mappings.map GRule.axis) s g').2 ++ []) _
    rw [List.append_nil]
    show EmEquiv s (runRules (cm.axis_mappings.map GRule.axis) s g')
      (discreteAxisRules cm.axis_mappings a v s)
    exact EmEquiv.of_eq hax (faithful_runRules _ s g')
  | ButtonPressed b =>
    have haxnoop : runRules (cm.axis_mappings.map GRule.axis) s g' = (s, []) := by
      apply runRules_noop
      intro r hr
      rcases List.mem_map.mp hr with ⟨m, hm, rfl⟩
      exact hA m hm trivial
    rw [haxnoop]
    show EmEquiv s (runRules (cm.button_mappings.map GRule.button) s g')
      (discreteButtonRules cm.button_mappings b true s)
    exact button_rules_sim _ b true g' hv _ hpB (fun m hm hmb => hB m hm hmb)
  | ButtonReleased b =>
    have haxnoop : runRules (cm.axis_mappings.map GRule.axis) s g' = (s, []) := by
      apply runRules_noop
      intro r hr
      rcases List.mem_map.mp hr with ⟨m, hm, rfl⟩
      exact hA m hm trivial
    rw [haxnoop]
    show EmEquiv s (runRules (cm.button_mappings.map GRule.button) s g')
      (discreteButtonRules cm.button_mappings b false s)
    exact button_rules_sim _ b false g' hv _ hpB (fun m hm hmb => hB m hm hmb)

/-!  Concrete facts about the shipped configuration. -/

theorem main_cm0_pairwise : cm0.rules.Pairwise KeysDisjoint := by decide

theorem main_cm1_pairwise : cm1.rules.Pairwise KeysDisjoint := by decide

theorem main_cross_disjoint01 : ∀ r ∈ cm0.rules, ∀ r' ∈ cm1.rules,
    KeysDisjoint r r' := by decide

theorem main_cross_disjoint10 : ∀ r ∈ cm1.rules, ∀ r' ∈ cm0.rules,
    KeysDisjoint r r' := by decide

theorem rulesFor_main_zero (g : Gamepad) (h : g.id = 0) :
    mainConfig.rulesFor g = cm0.rules := by
  unfold Config.rulesFor
  rw [h]
  decide

theorem rulesFor_main_one (g : Gamepad) (h : g.id = 1) :
    mainConfig.rulesFor g = cm1.rules := by
  unfold Config.rulesFor
  rw [h]
  decide

theorem apply_main_zero (g : Gamepad) (h : g.id = 0) (s : KeyState) :
    mainConfig.apply_mapping s g = runRules cm0.rules s g := by
  rw [Config.apply_mapping_rulesFor_eq, rulesFor_main_zero g h]

theorem apply_main_one (g : Gamepad) (h : g.id = 1) (s : KeyState) :
    mainConfig.apply_mapping s g = runRules cm1.rules s g := by
  rw [Config.apply_mapping_rulesFor_eq, rulesFor_main_one g h]

theorem resolveMapping_main_zero (G0 G1 : Gamepad) (h0 : G0.id = 0) :
    resolveMapping mainConfig [G0, G1] 0 = some cm0 := by
  unfold resolveMapping resolveIdx
  rw [h0]
  rfl

theorem resolveMapping_main_one (G0 G1 : Gamepad) (h0 : G0.id = 0)
    (h1 : G1.id = 1) : resolveMapping mainConfig [G0, G1] 1 = some cm1 := by
  unfold resolveMapping resolveIdx resolveIdx
  rw [h0, h1]
  rfl

theorem resolveMapping_main_none (G0 G1 : Gamepad) (d : Nat) (h0 : G0.id = 0)
    (h1 : G1.id = 1) (hd0 : d ≠ 0) (hd1 : d ≠ 1) :
    resolveMapping mainConfig [G0, G1] d = none := by
  unfold resolveMapping resolveIdx resolveIdx
  rw [h0, h1, if_neg (fun hh => hd0 hh.symm), if_neg (fun hh => hd1 hh.symm)]
  rfl

theorem applyEvent_main_zero (G0 G1 : Gamepad) (ev : RawEvent) (h0 : G0.id = 0)
    (h1 : G1.id = 1) :
    applyEvent [G0, G1] ⟨0, ev⟩ = [G0.applyRaw ev, G1] := by
  unfold applyEvent
  simp [h0, h1]

theorem applyEvent_main_one (G0 G1 : Gamepad) (ev : RawEvent) (h0 : G0.id = 0)
    (h1 : G1.id = 1) :
    applyEvent [G0, G1] ⟨1, ev⟩ = [G0, G1.applyRaw ev] := by
  unfold applyEvent
  simp [h0, h1]

theorem applyEvent_main_other (G0 G1 : Gamepad) (d : Nat) (ev : RawEvent)
    (h0 : G0.id = 0) (h1 : G1.id = 1) (hd0 : d ≠ 0) (hd1 : d ≠ 1) :
    applyEvent [G0, G1] ⟨d, ev⟩ = [G0, G1] := by
  unfold applyEvent
  simp only [List.map_cons, List.map_nil, h0, h1]
  rw [if_neg (fun hh => hd0 hh.symm), if_neg (fun hh => hd1 hh.symm)]

theorem runSnapshots_pair (c : Config) (Ga Gb : Gamepad) (s : KeyState) :
    runSnapshots c [Ga, Gb] s =
      ((c.apply_mapping (c.apply_mapping s Ga).1 Gb).1,
        (c.apply_mapping s Ga).2 ++
          ((c.apply_mapping (c.apply_mapping s Ga).1 Gb).2 ++ [])) := rfl

theorem mem_rules_axis {m : AxisMapping} {cm : ControllerMapping}
    (hm : m ∈ cm.axis_mappings) : GRule.axis m ∈ cm.rules :=
  List.mem_append_left _ (List.mem_map_of_mem _ hm)

theorem mem_rules_button {m : ButtonMapping} {cm : ControllerMapping}
    (hm : m ∈ cm.button_mappings) : GRule.button m ∈ cm.rules :=
  List.mem_append_right _ (List.mem_map_of_mem _ hm)

/-- One event against the shipped configuration: re-scanning both devices
after the physical change is net-equivalent to discrete dispatch of the
change, and the invariant survives. -/
theorem event_sim_main (w : World) (s : KeyState) (e : TaggedEvent)
    (hinv : InvMain w s) :
    EmEquiv s (runSnapshots mainConfig (applyEvent w e) s)
      (discreteStep mainConfig (applyEvent w e) s e) ∧
    InvMain (applyEvent w e) ((runSnapshots mainConfig (applyEvent w e) s).1) := by
  obtain ⟨G0, G1, rfl, h0, h1, hold0, hold1⟩ := hinv
  obtain ⟨d, ev⟩ := e
  by_cases hd0 : d = 0
  · subst hd0
    rw [applyEvent_main_zero G0 G1 ev h0 h1]
    have h0' : (G0.applyRaw ev).id = 0 := by rw [Gamepad.applyRaw_id]; exact h0
    have hres : discreteStep mainConfig [G0.applyRaw ev, G1] s ⟨0, ev⟩ =
        discreteDispatch cm0 ev s := by
      unfold discreteStep
      rw [resolveMapping_main_zero (G0.applyRaw ev) G1 h0']
    have hold1' : ∀ r ∈ cm1.rules,
        r.Holds G1 ((runRules cm0.rules s (G0.applyRaw ev)).1) :=
      fun r hr => runRules_holds_preserved
        (fun r' hr' => main_cross_disjoint10 r hr r' hr') (hold1 r hr)
    have hnoop1 : runRules cm1.rules ((runRules cm0.rules s (G0.applyRaw ev)).1) G1 =
        ((runRules cm0.rules s (G0.applyRaw ev)).1, []) := runRules_noop hold1'
    have hsnap : runSnapshots mainConfig [G0.applyRaw ev, G1] s =
        ((runRules cm0.rules s (G0.applyRaw ev)).1,
          (runRules cm0.rules s (G0.applyRaw ev)).2 ++ ([] ++ [])) := by
      rw [runSnapshots_pair, apply_main_zero (G0.applyRaw ev) h0' s,
        apply_main_one G1 h1, hnoop1]
    have hmain : EmEquiv s (runRules cm0.rules s (G0.applyRaw ev))
        (discreteDispatch cm0 ev s) := by
      refine dispatch_sim cm0 ev (G0.applyRaw ev) main_cm0_pairwise s ?_ ?_ ?_
      · cases ev with
        | AxisChanged a v => exact Gamepad.setAxis_axisValue_self G0 a v
        | ButtonPressed b => exact Gamepad.setButton_buttonValue_self G0 b 1
        | ButtonReleased b => exact Gamepad.setButton_buttonValue_self G0 b 0
      · intro m hm hcond
        have hbase := hold0 (GRule.axis m) (mem_rules_axis hm)
        cases ev with
        | AxisChanged a v =>
          exact axis_holds_value_congr
            (Gamepad.setAxis_axisValue_ne G0 a m.axis v hcond).symm hbase
        | ButtonPressed b =>
          exact axis_holds_value_congr
            (Gamepad.setButton_axisValue G0 b 1 m.axis).symm hbase
        | ButtonReleased b =>
          exact axis_holds_value_congr
            (Gamepad.setButton_axisValue G0 b 0 m.axis).symm hbase
      · intro m hm hcond
        have hbase := hold0 (GRule.button m) (mem_rules_button hm)
        cases ev with
        | AxisChanged a v =>
          exact button_holds_value_congr
            (Gamepad.setAxis_buttonValue G0 a v m.button).symm hbase
        | ButtonPressed b =>
          exact button_holds_value_congr
            (Gamepad.setButton_buttonValue_ne G0 b m.button 1 hcond).symm hbase
        | ButtonReleased b =>
          exact button_holds_value_congr
            (Gamepad.setButton_buttonValue_ne G0 b m.button 0 hcond).symm hbase
    constructor
    · rw [hsnap, hres]
      show EmEquiv s ((runRules cm0.rules s (G0.applyRaw ev)).1,
        (runRules cm0.rules s (G0.applyRaw ev)).2 ++ ([] ++ []))
        (discreteDispatch cm0 ev s)
      rw [List.nil_append, List.append_nil]
      exact hmain
    · rw [hsnap]
      exact ⟨G0.applyRaw ev, G1, rfl, h0', h1,
        fun r hr => runRules_establishes main_cm0_pairwise s (G0.applyRaw ev) r hr,
        hold1'⟩
  · by_cases hd1 : d = 1
    · subst hd1
      rw [applyEvent_main_one G0 G1 ev h0 h1]
      have h1' : (G1.applyRaw ev).id = 1 := by rw [Gamepad.applyRaw_id]; exact h1
      have hres : discreteStep mainConfig [G0, G1.applyRaw ev] s ⟨1, ev⟩ =
          discreteDispatch cm1 ev s := by
        unfold discreteStep
        rw [resolveMapping_main_one G0 (G1.applyRaw ev) h0 h1']
      have hnoop0 : runRules cm0.rules s G0 = (s, []) := runRules_noop hold0
      have hsnap : runSnapshots mainConfig [G0, G1.applyRaw ev] s =
          ((runRules cm1.rules s (G1.applyRaw ev)).1,
            [] ++ ((runRules cm1.rules s (G1.applyRaw ev)).2 ++ [])) := by
        rw [runSnapshots_pair, apply_main_zero G0 h0 s, hnoop0,
          apply_main_one (G1.applyRaw ev) h1']
      have hmain : EmEquiv s (runRules cm1.rules s (G1.applyRaw ev))
          (discreteDispatch cm1 ev s) := by
        refine dispatch_sim cm1 ev (G1.applyRaw ev) main_cm1_pairwise s ?_ ?_ ?_
        · cases ev with
          | AxisChanged a v => exact Gamepad.setAxis_axisValue_self G1 a v
          | ButtonPressed b => exact Gamepad.setButton_buttonValue_self G1 b 1
          | ButtonReleased b => exact Gamepad.setButton_buttonValue_self G1 b 0
        · intro m hm hcond
          have hbase := hold1 (GRule.axis m) (mem_rules_axis hm)
          cases ev with
          | AxisChanged a v =>
            exact axis_holds_value_congr
              (Gamepad.setAxis_axisValue_ne G1 a m.axis v hcond).symm hbase
          | ButtonPressed b =>
            exact axis_holds_value_congr
              (Gamepad.setButton_axisValue G1 b 1 m.axis).symm hbase
          | ButtonReleased b =>
            exact axis_holds_value_congr
              (Gamepad.setButton_axisValue G1 b 0 m.axis).symm hbase
        · intro m hm hcond
          have hbase := hold1 (GRule.button m) (mem_rules_button hm)
          cases ev with
          | AxisChanged a v =>
            exact button_holds_value_congr
              (Gamepad.setAxis_buttonValue G1 a v m.button).symm hbase
          | ButtonPressed b =>
            exact button_holds_value_congr
              (Gamepad.setButton_buttonValue_ne G1 b m.button 1 hcond).symm hbase
          | ButtonReleased b =>
            exact button_holds_value_congr
              (Gamepad.setButton_buttonValue_ne G1 b m.button 0 hcond).symm hbase
      constructor
      · rw [hsnap, hres]
        show EmEquiv s ((runRules cm1.rules s (G1.applyRaw ev)).1,
          [] ++ ((runRules cm1.rules s (G1.applyRaw ev)).2 ++ []))
          (discreteDispatch cm1 ev s)
        rw [List.nil_append, List.append_nil]
        exact hmain
      · rw [hsnap]
        exact ⟨G0, G1.applyRaw ev, rfl, h0, h1',
          fun r hr => runRules_holds_preserved
            (fun r' hr' => main_cross_disjoint01 r hr r' hr') (hold0 r hr),
          fun r hr => runRules_establishes main_cm1_pairwise s (G1.applyRaw ev) r hr⟩
    · rw [applyEvent_main_other G0 G1 d ev h0 h1 hd0 hd1]
      have hres : discreteStep mainConfig [G0, G1] s ⟨d, ev⟩ = (s, []) := by
        unfold discreteStep
        rw [resolveMapping_main_none G0 G1 d h0 h1 hd0 hd1]
      have hsnap : runSnapshots mainConfig [G0, G1] s = (s, [] ++ ([] ++ [])) := by
        rw [runSnapshots_pair, apply_main_zero G0 h0 s, runRules_noop hold0,
          apply_main_one G1 h1, runRules_noop hold1]
      constructor
      · rw [hsnap, hres]
        exact ⟨rfl, rfl, faithful_id s, faithful_id s⟩
      · rw [hsnap]
        exact ⟨G0, G1, rfl, h0, h1, hold0, hold1⟩

theorem initial_holds_axis (m : AxisMapping) (g : Gamepad)
    (hv : g.axisValue m.axis = 0) (ht : 0 ≤ m.threshold) :
    (GRule.axis m).Holds g emptyLedger := by
  show m.Holds (g.axisValue m.axis) emptyLedger
  rw [hv]
  exact ⟨fun h => absurd h (not_lt.mpr (neg_nonpos.mpr ht)),
    fun _ h => absurd h (not_lt.mpr ht),
    fun _ _ => ⟨rfl, rfl⟩⟩

theorem initial_holds_button (m : ButtonMapping) (g : Gamepad)
    (hv : g.buttonValue m.button = 0) :
    (GRule.button m).Holds g emptyLedger := by
  show m.Holds (g.buttonValue m.button) emptyLedger
  rw [hv]
  exact ⟨fun h => absurd h (by decide), fun _ => rfl⟩

theorem holds_all_neutral (cm : ControllerMapping) (did : Nat)
    (ht : ∀ m ∈ cm.axis_mappings, 0 ≤ m.threshold) :
    ∀ r ∈ cm.rules, r.Holds (neutralPad did) emptyLedger := by
  intro r hr
  unfold ControllerMapping.rules at hr
  rcases List.mem_append.mp hr with h | h
  · rcases List.mem_map.mp h with ⟨m, hm, rfl⟩
    exact initial_holds_axis m _ rfl (ht m hm)
  · rcases List.mem_map.mp h with ⟨m, hm, rfl⟩
    exact initial_holds_button m _ rfl

theorem initial_inv_main : InvMain [neutralPad 0, neutralPad 1] emptyLedger :=
  ⟨neutralPad 0, neutralPad 1, rfl, rfl, rfl,
    holds_all_neutral cm0 0 (by decide), holds_all_neutral cm1 1 (by decide)⟩

/-- Every event sequence preserves the equivalence of the two dispatch
modes: same final ledger, same net assertions. -/
theorem runs_equiv_main (es : List TaggedEvent) :
    ∀ (w : World) (s : KeyState), InvMain w s →
      (snapshotRun mainConfig w s es).2.1 = (discreteRun mainConfig w s es).2.1 ∧
      netFilter s (snapshotRun mainConfig w s es).2.2 =
        netFilter s (discreteRun mainConfig w s es).2.2 := by
  induction es with
  | nil =>
    intro w s _
    exact ⟨rfl, rfl⟩
  | cons e rest ih =>
    intro w s hinv
    obtain ⟨hequiv, hinv'⟩ := event_sim_main w s e hinv
    obtain ⟨hst, hnet, hfp, hfq⟩ := hequiv
    have hstate : (discreteStep mainConfig (applyEvent w e) s e).1 =
        (runSnapshots mainConfig (applyEvent w e) s).1 := hst.symm
    unfold Faithful at hfp hfq
    constructor
    · show (snapshotRun mainConfig (applyEvent w e)
          ((runSnapshots mainConfig (applyEvent w e) s).1) rest).2.1 =
        (discreteRun mainConfig (applyEvent w e)
          ((discreteStep mainConfig (applyEvent w e) s e).1) rest).2.1
      rw [hstate]
      exact (ih _ _ hinv').1
    · show netFilter s ((runSnapshots mainConfig (applyEvent w e) s).2 ++
          (snapshotRun mainConfig (applyEvent w e)
            ((runSnapshots mainConfig (applyEvent w e) s).1) rest).2.2) =
        netFilter s ((discreteStep mainConfig (applyEvent w e) s e).2 ++
          (discreteRun mainConfig (applyEvent w e)
            ((discreteStep mainConfig (applyEvent w e) s e).1) rest).2.2)
      rw [netFilter_append, netFilter_append, hfp, hfq, hstate, hnet,
        (ih _ _ hinv').2]

/-- Claim C5, spec modelled: discrete-event mode is absent from src/, so it
is modelled from the specification, sections 4.3 (b) and 4.5: positional
device resolution, axis events re-running the threshold match of the
matching axis rules, button events forcing an unconditional press or
release.  Starting from the two devices of main() at rest and the empty
ledger, every sequence of tagged physical state changes dispatched in
snapshot mode and in discrete-event mode produces the same final ledger and
the same sequence, hence multiset, of net key assertions, redundant
repeated calls filtered against the evolving ledger. -/
theorem mode_equivalence (es : List TaggedEvent) :
    (snapshotRun mainConfig [neutralPad 0, neutralPad 1] emptyLedger es).2.1 =
      (discreteRun mainConfig [neutralPad 0, neutralPad 1] emptyLedger es).2.1 ∧
    netFilter emptyLedger
        (snapshotRun mainConfig [neutralPad 0, neutralPad 1] emptyLedger es).2.2 =
      netFilter emptyLedger
        (discreteRun mainConfig [neutralPad 0, neutralPad 1] emptyLedger es).2.2 :=
  runs_equiv_main es _ _ initial_inv_main
